import Mathlib

/-!
Verification of the CanPoli API against its specification.

This file gives a shallow embedding, in Lean 4, of the parts of the
`canpoli` code base that the checked properties speak about:

* the in-process counter store (`canpoli/redis_client.py`, class
  `InMemoryRedis`), instrumented with an operation log so that "performs
  exactly one INCR" statements can be proved;
* the fixed-window rate limiter and the access-control dependency
  (`canpoli/rate_limit.py`);
* the usage-metering middleware (`canpoli/app.py`, `usage_middleware`,
  and `canpoli/rate_limit.py`, `increment_usage`);
* the parliamentary ingestion pipelines and their orchestrator
  (`canpoli/services/hoc_parliament_ingestion.py`), together with the
  repository upsert/delete helpers they use
  (`canpoli/repositories/*.py`).

Machine integers are modelled as `Int`/`Nat`; upstream fetches, the HMAC
hash, sha256 and the HTML/XML parsers are passed in as explicit function
parameters, so each theorem quantifies over the data they produce.
-/

namespace Canpoli

/-! ## Association-list helpers used by every state model -/

/-- Lookup in a string-keyed association list (a Python dict, observationally). -/
def alookup {α : Type} (l : List (String × α)) (k : String) : Option α :=
  (l.find? (fun p => p.fst == k)).map Prod.snd

/-- Store a key-value pair, replacing any previous binding (dict assignment). -/
def aset {α : Type} (l : List (String × α)) (k : String) (v : α) : List (String × α) :=
  (k, v) :: l.filter (fun p => p.fst != k)

/-- Remove a key (dict `pop`). -/
def aerase {α : Type} (l : List (String × α)) (k : String) : List (String × α) :=
  l.filter (fun p => p.fst != k)

/-! ## Counter store: `InMemoryRedis` from `canpoli/redis_client.py`

The store is a pair of dicts, `_data` (counter values) and `_expiry`
(absolute expiry times).  The model adds an operation log recording every
`INCR` and `EXPIRE` issued, which lets us state "exactly one INCR per
request" as a property of the log. -/

/-- A logged counter-store operation. -/
inductive StoreOp where
  | incrOp (key : String) : StoreOp
  | expireOp (key : String) (seconds : Nat) : StoreOp
deriving DecidableEq, Repr

/-- State of `InMemoryRedis`: `_data`, `_expiry`, plus the operation log. -/
structure RedisState where
  data : List (String × Int)
  expiry : List (String × Nat)
  log : List StoreOp
deriving DecidableEq, Repr

/-- `InMemoryRedis._cleanup`: drop the key when its expiry has passed. -/
def RedisState.cleanup (st : RedisState) (now : Nat) (key : String) : RedisState :=
  match alookup st.expiry key with
  | some e =>
    if e ≤ now then
      { st with data := aerase st.data key, expiry := aerase st.expiry key }
    else st
  | none => st

/-- `InMemoryRedis.incr`: cleanup, then increment (missing key counts as 0). -/
def RedisState.incr (st : RedisState) (now : Nat) (key : String) : RedisState × Int :=
  let st1 := st.cleanup now key
  let v : Int := (alookup st1.data key).getD 0 + 1
  ({ st1 with
      data := aset st1.data key v
      log := st1.log ++ [StoreOp.incrOp key] }, v)

/-- `InMemoryRedis.expire`: set the expiry `seconds` from `now`. -/
def RedisState.expire (st : RedisState) (now : Nat) (key : String) (seconds : Nat) :
    RedisState :=
  { st with
      expiry := aset st.expiry key (now + seconds)
      log := st.log ++ [StoreOp.expireOp key seconds] }

/-! ## Fixed-window rate limiting: `_apply_rate_limit` in `canpoli/rate_limit.py` -/

/-- An HTTP error raised as `HTTPException(status_code, detail)`. -/
structure HttpError where
  status : Nat
  detail : String
deriving DecidableEq, Repr

/-- The rate-limit counter key `ratelimit:{identity}:{window}`. -/
def rateLimitKey (identity : String) (window : Nat) : String :=
  "ratelimit:" ++ identity ++ ":" ++ toString window

/-- `_apply_rate_limit(identity, limit)` at time `now` (unix seconds):
window is `now / 60`; one `INCR`; `EXPIRE 60` exactly when the returned
count is 1; 429 when the count exceeds the limit. -/
def applyRateLimit (st : RedisState) (now : Nat) (identity : String) (limit : Int) :
    RedisState × Except HttpError Unit :=
  let window := now / 60
  let key := rateLimitKey identity window
  let p := st.incr now key
  let st2 := if p.2 = 1 then p.1.expire now key 60 else p.1
  if p.2 > limit then (st2, Except.error ⟨429, "Rate limit exceeded"⟩)
  else (st2, Except.ok ())

/-- A sequence of requests through `_apply_rate_limit`, carrying the store
state; returns the per-request outcomes in order. -/
def runRequests (st : RedisState) (identity : String) (limit : Int) :
    List Nat → RedisState × List (Except HttpError Unit)
  | [] => (st, [])
  | t :: ts =>
    let p := applyRateLimit st t identity limit
    let q := runRequests p.1 identity limit ts
    (q.1, p.2 :: q.2)

/-- Expected per-request outcomes when the counter currently reads `c`:
request `i` of the sequence sees count `c + i + 1` and succeeds exactly
when that count is within the limit. -/
def expectedOutcomes (c limit : Int) : Nat → List (Except HttpError Unit)
  | 0 => []
  | Nat.succ n =>
    (if c + 1 ≤ limit then Except.ok () else Except.error ⟨429, "Rate limit exceeded"⟩)
      :: expectedOutcomes (c + 1) limit n

theorem alookup_aset_self {α : Type} (l : List (String × α)) (k : String) (v : α) :
    alookup (aset l k v) k = some v := by
  simp [alookup, aset, List.find?]

theorem expectedOutcomes_getElem? (limit : Int) :
    ∀ (n : Nat) (c : Int) (i : Nat), i < n →
      (expectedOutcomes c limit n)[i]? =
        some (if c + (i : Int) + 1 ≤ limit then Except.ok ()
              else Except.error ⟨429, "Rate limit exceeded"⟩) := by
  intro n
  induction n with
  | zero => intro c i hi; omega
  | succ m ih =>
    intro c i hi
    cases i with
    | zero => simp [expectedOutcomes]
    | succ j =>
      have hj : j < m := by omega
      have := ih (c + 1) j hj
      simp only [expectedOutcomes, List.getElem?_cons_succ]
      rw [this]
      congr 1
      have : c + 1 + (j : Int) + 1 = c + ((j : Int) + 1) + 1 := by ring
      rw [this]
      norm_cast

theorem applyRateLimit_steady (identity : String) (limit : Int) (w e : Nat)
    (st : RedisState) (c : Int) (now : Nat)
    (hc : 1 ≤ c)
    (hd : alookup st.data (rateLimitKey identity w) = some c)
    (he : alookup st.expiry (rateLimitKey identity w) = some e)
    (hw : now / 60 = w) (hlt : now < e) :
    applyRateLimit st now identity limit =
      ({ st with
          data := aset st.data (rateLimitKey identity w) (c + 1)
          log := st.log ++ [StoreOp.incrOp (rateLimitKey identity w)] },
        if c + 1 > limit then Except.error ⟨429, "Rate limit exceeded"⟩ else Except.ok ()) := by
  have hkey : rateLimitKey identity (now / 60) = rateLimitKey identity w := by rw [hw]
  have hclean : st.cleanup now (rateLimitKey identity w) = st := by
    unfold RedisState.cleanup
    rw [he]
    simp [Nat.not_le.mpr hlt]
  have hincr : st.incr now (rateLimitKey identity w) =
      ({ st with
          data := aset st.data (rateLimitKey identity w) (c + 1)
          log := st.log ++ [StoreOp.incrOp (rateLimitKey identity w)] }, c + 1) := by
    simp [RedisState.incr, hclean, hd]
  simp only [applyRateLimit, hkey, hincr]
  have hne : ¬ (c + 1 = 1) := by omega
  rw [if_neg hne]
  by_cases h : c + 1 > limit
  · rw [if_pos h, if_pos h]
  · rw [if_neg h, if_neg h]

theorem runRequests_steady (identity : String) (limit : Int) (w e : Nat) :
    ∀ (ts : List Nat) (st : RedisState) (c : Int),
      1 ≤ c →
      alookup st.data (rateLimitKey identity w) = some c →
      alookup st.expiry (rateLimitKey identity w) = some e →
      (∀ t ∈ ts, t / 60 = w ∧ t < e) →
      (runRequests st identity limit ts).2 = expectedOutcomes c limit ts.length ∧
        (runRequests st identity limit ts).1.log =
          st.log ++ ts.map (fun _ => StoreOp.incrOp (rateLimitKey identity w)) := by
  intro ts
  induction ts with
  | nil => intro st c _ _ _ _; exact ⟨rfl, by simp [runRequests]⟩
  | cons t rest ih =>
    intro st c hc hd he hts
    have ht := hts t (List.mem_cons_self t rest)
    have hstep := applyRateLimit_steady identity limit w e st c t hc hd he ht.1 ht.2
    have hrest : ∀ u ∈ rest, u / 60 = w ∧ u < e := by
      intro u hu; exact hts u (List.mem_cons_of_mem t hu)
    set st' : RedisState :=
      { st with
          data := aset st.data (rateLimitKey identity w) (c + 1)
          log := st.log ++ [StoreOp.incrOp (rateLimitKey identity w)] } with hst'
    have hd' : alookup st'.data (rateLimitKey identity w) = some (c + 1) := by
      rw [hst']; exact alookup_aset_self _ _ _
    have he' : alookup st'.expiry (rateLimitKey identity w) = some e := he
    have ihr := ih st' (c + 1) (by omega) hd' he' hrest
    constructor
    · show (runRequests st identity limit (t :: rest)).2 = _
      unfold runRequests
      rw [hstep]
      simp only
      rw [ihr.1]
      show _ = (if c + 1 ≤ limit then Except.ok ()
          else Except.error ⟨429, "Rate limit exceeded"⟩)
            :: expectedOutcomes (c + 1) limit rest.length
      congr 1
      by_cases h : c + 1 > limit
      · rw [if_pos h, if_neg (by omega : ¬ (c + 1 ≤ limit))]
      · rw [if_neg h, if_pos (by omega : c + 1 ≤ limit)]
    · show (runRequests st identity limit (t :: rest)).1.log = _
      unfold runRequests
      rw [hstep]
      simp only
      rw [ihr.2, hst']
      simp

/-- Numeric fact used to keep every later request of a window before the
expiry set by the window's first request. -/
theorem window_time_lt (t first w : Nat) (ht : t / 60 = w) (hf : first / 60 = w) :
    t < first + 60 := by
  have h1 : t < (w + 1) * 60 := by
    have : t / 60 < w + 1 := by omega
    exact Nat.lt_mul_of_div_lt this (by norm_num)
  have h2 : w * 60 ≤ first := by
    have := Nat.div_mul_le_self first 60
    omega
  omega

/-- C1. Fixed-window rate limiting (`_apply_rate_limit` in
`canpoli/rate_limit.py` over `InMemoryRedis.incr` in
`canpoli/redis_client.py`): for requests all falling in window
`w = now / 60` against a key not yet present in the store, the operation
log grows by exactly one `INCR` of `ratelimit:{identity}:{w}` per request,
with the 60-second `EXPIRE` issued exactly once, after the first request
(the one whose returned count is 1); and the `i`-th request (0-based)
succeeds precisely when `i + 1 ≤ limit`, every later request failing with
`429 Rate limit exceeded`. -/
theorem rateLimit_fixed_window (st : RedisState) (identity : String) (limit : Int)
    (ts : List Nat) (w : Nat)
    (hd : alookup st.data (rateLimitKey identity w) = none)
    (he : alookup st.expiry (rateLimitKey identity w) = none)
    (hw : ∀ t ∈ ts, t / 60 = w) :
    ((runRequests st identity limit ts).1.log =
        st.log ++
          (match ts with
            | [] => []
            | _ :: rest =>
              StoreOp.incrOp (rateLimitKey identity w)
                :: StoreOp.expireOp (rateLimitKey identity w) 60
                :: rest.map (fun _ => StoreOp.incrOp (rateLimitKey identity w)))) ∧
      ∀ i, i < ts.length →
        (runRequests st identity limit ts).2[i]? =
          some (if (i : Int) + 1 ≤ limit then Except.ok ()
                else Except.error ⟨429, "Rate limit exceeded"⟩) := by
  cases ts with
  | nil =>
    refine ⟨by simp [runRequests], ?_⟩
    intro i hi; simp at hi
  | cons t rest =>
    have ht : t / 60 = w := hw t (List.mem_cons_self t rest)
    have hkey : rateLimitKey identity (t / 60) = rateLimitKey identity w := by rw [ht]
    have hclean : st.cleanup t (rateLimitKey identity w) = st := by
      unfold RedisState.cleanup
      rw [he]
    have hincr : st.incr t (rateLimitKey identity w) =
        ({ st with
            data := aset st.data (rateLimitKey identity w) 1
            log := st.log ++ [StoreOp.incrOp (rateLimitKey identity w)] }, 1) := by
      simp [RedisState.incr, hclean, hd]
    have hstep : applyRateLimit st t identity limit =
        ({ st with
            data := aset st.data (rateLimitKey identity w) 1
            expiry := aset st.expiry (rateLimitKey identity w) (t + 60)
            log := st.log ++ [StoreOp.incrOp (rateLimitKey identity w),
                              StoreOp.expireOp (rateLimitKey identity w) 60] },
          if (1 : Int) > limit then Except.error ⟨429, "Rate limit exceeded"⟩
          else Except.ok ()) := by
      simp only [applyRateLimit, hkey, hincr]
      simp [RedisState.expire]
      split <;> rfl
    set st' : RedisState :=
      { st with
          data := aset st.data (rateLimitKey identity w) 1
          expiry := aset st.expiry (rateLimitKey identity w) (t + 60)
          log := st.log ++ [StoreOp.incrOp (rateLimitKey identity w),
                            StoreOp.expireOp (rateLimitKey identity w) 60] } with hst'
    have hd' : alookup st'.data (rateLimitKey identity w) = some 1 := by
      rw [hst']; exact alookup_aset_self _ _ _
    have he' : alookup st'.expiry (rateLimitKey identity w) = some (t + 60) := by
      rw [hst']; exact alookup_aset_self _ _ _
    have hrest : ∀ u ∈ rest, u / 60 = w ∧ u < t + 60 := by
      intro u hu
      have hu60 := hw u (List.mem_cons_of_mem t hu)
      exact ⟨hu60, window_time_lt u t w hu60 ht⟩
    have hsteady := runRequests_steady identity limit w (t + 60) rest st' 1 le_rfl hd' he' hrest
    constructor
    · show (runRequests st identity limit (t :: rest)).1.log = _
      unfold runRequests
      rw [hstep]
      simp only
      rw [hsteady.2, hst']
      simp
    · intro i hi
      show (runRequests st identity limit (t :: rest)).2[i]? = _
      unfold runRequests
      rw [hstep]
      simp only
      rw [hsteady.1]
      cases i with
      | zero =>
        simp only [List.getElem?_cons_zero, Nat.cast_zero, zero_add]
        by_cases h : (1 : Int) ≤ limit
        · rw [if_pos h, if_neg (by omega : ¬ (1 : Int) > limit)]
        · rw [if_neg h, if_pos (by omega : (1 : Int) > limit)]
      | succ j =>
        simp only [List.getElem?_cons_succ]
        have hj : j < rest.length := by simp at hi; omega
        rw [expectedOutcomes_getElem? limit rest.length 1 j hj]
        have hcast : (1 : Int) + (j : Int) + 1 = (((j + 1 : Nat) : Int) + 1) := by
          push_cast; ring
        rw [hcast]

/-! ## Access control: `rate_limit_dependency` in `canpoli/rate_limit.py` -/

/-- An `ApiKey` row (`canpoli/models/api_key.py`); ids are opaque strings. -/
structure ApiKeyRec where
  id : String
  userId : String
  keyHash : String
  active : Bool
deriving DecidableEq, Repr

/-- A `Billing` row (`canpoli/models/billing.py`); period bounds carried as
unix timestamps. -/
structure BillingRec where
  userId : String
  status : Option String
  currentPeriodStart : Option Nat
  currentPeriodEnd : Option Nat
deriving DecidableEq, Repr

/-- The slice of the relational store the dependency reads. -/
structure Db where
  apiKeys : List ApiKeyRec
  billings : List BillingRec
deriving DecidableEq, Repr

/-- `ApiKeyRepository.get_by_hash`. -/
def getByHash (db : Db) (h : String) : Option ApiKeyRec :=
  db.apiKeys.find? (fun k => k.keyHash == h)

/-- `BillingRepository.get_by_user_id`. -/
def getBillingByUserId (db : Db) (uid : String) : Option BillingRec :=
  db.billings.find? (fun b => b.userId == uid)

/-- `is_subscription_active`: status in the set of active statuses. -/
def isSubscriptionActive (status : Option String) : Bool :=
  status == some "active" || status == some "trialing"

/-- The slice of `canpoli/config.py` `Settings` the verified code reads,
with the defaults declared there. -/
structure Settings where
  apiKeyHmacSecret : Option String
  freeRateLimitPerMinute : Int
  paidRateLimitPerMinute : Int
  hocParliament : Int
  hocSession : Int
  hocDebatesMaxSitting : Nat
  hocDebatesLookahead : Nat
  hocDebatesMaxMissing : Nat
  hocDebateLanguages : List String

/-- The field defaults from `canpoli/config.py`. -/
def defaultSettings : Settings :=
  ⟨none, 50, 500, 45, 1, 200, 10, 20, ["en", "fr"]⟩

/-- Python truthiness of the configured secret (`None` and `""` falsy). -/
def secretConfigured (s : Option String) : Bool :=
  match s with
  | none => false
  | some v => v != ""

/-- Python `str.isspace` characters relevant to `str.strip()` (ASCII). -/
def pyIsSpace (c : Char) : Bool :=
  c == ' ' || c == '\t' || c == '\n' || c == '\r' || c == Char.ofNat 11 || c == Char.ofNat 12

/-- Python `str.strip()`. -/
def pyStrip (s : String) : String :=
  String.mk (((s.data.dropWhile pyIsSpace).reverse.dropWhile pyIsSpace).reverse)

/-- Normalisation of the `X-API-Key` header performed by
`rate_limit_dependency`: a missing, empty, or whitespace-only value is
treated as no key; otherwise the stripped value is used. -/
def normalizeApiKey (header : Option String) : Option String :=
  match header with
  | none => none
  | some v =>
    if v = "" then none
    else
      let s := pyStrip v
      if s = "" then none else some s

/-- What the dependency attaches to `request.state` on success. -/
structure RequestAttach where
  apiKeyId : Option String
  usagePeriodStart : Option Nat
  usagePeriodEnd : Option Nat
deriving DecidableEq, Repr

/-- `rate_limit_dependency`: API-key validation, subscription gating and
tier selection.  The HMAC (`hash_api_key`) is passed in as `hash`. -/
def rateLimitDependency (hash : String → String) (settings : Settings) (db : Db)
    (st : RedisState) (now : Nat) (clientIp : String) (header : Option String) :
    RedisState × Except HttpError RequestAttach :=
  match normalizeApiKey header with
  | some apiKey =>
    if !(secretConfigured settings.apiKeyHmacSecret) then
      (st, Except.error ⟨500, "API key hashing not configured"⟩)
    else
      match getByHash db (hash apiKey) with
      | none => (st, Except.error ⟨401, "Invalid API key"⟩)
      | some keyRec =>
        if !keyRec.active then (st, Except.error ⟨403, "API key inactive"⟩)
        else
          match getBillingByUserId db keyRec.userId with
          | none => (st, Except.error ⟨403, "Subscription inactive"⟩)
          | some billing =>
            if !(isSubscriptionActive billing.status) then
              (st, Except.error ⟨403, "Subscription inactive"⟩)
            else
              let p := applyRateLimit st now ("key:" ++ keyRec.id)
                settings.paidRateLimitPerMinute
              match p.2 with
              | Except.error e => (p.1, Except.error e)
              | Except.ok _ =>
                (p.1, Except.ok
                  ⟨some keyRec.id, billing.currentPeriodStart, billing.currentPeriodEnd⟩)
  | none =>
    let p := applyRateLimit st now ("ip:" ++ clientIp) settings.freeRateLimitPerMinute
    (p.1, p.2.map (fun _ => ⟨none, none, none⟩))

/-- The tier-selection and rejection chain exactly as the specification
words it (written from the spec, for comparison with
`rateLimitDependency`): unknown hash → 401, inactive key → 403, missing
or non-active billing → 403, otherwise the paid limit under identity
`key:{id}`; with no presented key, the free limit under `ip:{client_ip}`. -/
def tierSelectionSpec (hash : String → String) (settings : Settings) (db : Db)
    (st : RedisState) (now : Nat) (clientIp : String) (header : Option String) :
    RedisState × Except HttpError Unit :=
  match normalizeApiKey header with
  | some apiKey =>
    match getByHash db (hash apiKey) with
    | none => (st, Except.error ⟨401, "Invalid API key"⟩)
    | some keyRec =>
      if !keyRec.active then (st, Except.error ⟨403, "API key inactive"⟩)
      else
        match getBillingByUserId db keyRec.userId with
        | none => (st, Except.error ⟨403, "Subscription inactive"⟩)
        | some billing =>
          if !(isSubscriptionActive billing.status) then
            (st, Except.error ⟨403, "Subscription inactive"⟩)
          else applyRateLimit st now ("key:" ++ keyRec.id) settings.paidRateLimitPerMinute
  | none => applyRateLimit st now ("ip:" ++ clientIp) settings.freeRateLimitPerMinute

theorem exceptMap_unit {H α : Type} (e : Except H Unit) (f : Unit → α) :
    (e.map f).map (fun _ => ()) = e := by
  cases e with
  | error a => rfl
  | ok a => rfl

/-- C2. With a hashing secret configured, `rate_limit_dependency` refines
the specification's tier-selection chain: unknown key hash → 401 "Invalid
API key"; matching but inactive key → 403 "API key inactive"; missing or
non-active billing → 403 "Subscription inactive"; otherwise the paid limit
under identity `key:{api_key.id}`; and the IP-based free limit runs only
when no (normalised) API key value is present, a rejected key never
reaching it. -/
theorem tierSelection_rejection_chain (hash : String → String) (settings : Settings)
    (db : Db) (st : RedisState) (now : Nat) (clientIp : String) (header : Option String)
    (s : String) (hs : settings.apiKeyHmacSecret = some s) (hne : s ≠ "") :
    ((rateLimitDependency hash settings db st now clientIp header).1,
        (rateLimitDependency hash settings db st now clientIp header).2.map (fun _ => ())) =
      tierSelectionSpec hash settings db st now clientIp header := by
  have hsec : secretConfigured settings.apiKeyHmacSecret = true := by
    rw [hs]
    simpa [secretConfigured] using hne
  unfold rateLimitDependency tierSelectionSpec
  cases hnorm : normalizeApiKey header with
  | none =>
    simp only
    rw [exceptMap_unit]
  | some apiKey =>
    simp only [hsec, Bool.not_true, Bool.false_eq_true, if_false]
    cases hk : getByHash db (hash apiKey) with
    | none => rfl
    | some keyRec =>
      by_cases ha : keyRec.active
      · simp only [ha, Bool.not_true, Bool.false_eq_true, if_false]
        cases hb : getBillingByUserId db keyRec.userId with
        | none => rfl
        | some billing =>
          by_cases hsub : isSubscriptionActive billing.status
          · simp only [hsub, Bool.not_true, Bool.false_eq_true, if_false]
            cases hr : (applyRateLimit st now ("key:" ++ keyRec.id)
                settings.paidRateLimitPerMinute).2 with
            | error e =>
              refine Prod.ext rfl ?_
              rw [hr]
              rfl
            | ok u =>
              cases u
              refine Prod.ext rfl ?_
              rw [hr]
              rfl
          · simp only [Bool.not_eq_true] at hsub
            simp [hsub]
            rfl
      · simp only [Bool.not_eq_true] at ha
        simp [ha]
        rfl

/-- Closed instance of C2: a db with one active key and active billing;
an unknown key gets 401 and the known key reaches the paid limiter. -/
theorem tierSelection_rejection_chain_witness :
    ((rateLimitDependency (fun k => k ++ "-h")
          ⟨some "sec", 50, 500, 45, 1, 200, 10, 20, ["en", "fr"]⟩
          ⟨[⟨"id1", "u1", "abc-h", true⟩], [⟨"u1", some "active", some 100, none⟩]⟩
          ⟨[], [], []⟩ 120 "9.9.9.9" (some "zzz")).1,
        (rateLimitDependency (fun k => k ++ "-h")
          ⟨some "sec", 50, 500, 45, 1, 200, 10, 20, ["en", "fr"]⟩
          ⟨[⟨"id1", "u1", "abc-h", true⟩], [⟨"u1", some "active", some 100, none⟩]⟩
          ⟨[], [], []⟩ 120 "9.9.9.9" (some "zzz")).2.map (fun _ => ())) =
      tierSelectionSpec (fun k => k ++ "-h")
        ⟨some "sec", 50, 500, 45, 1, 200, 10, 20, ["en", "fr"]⟩
        ⟨[⟨"id1", "u1", "abc-h", true⟩], [⟨"u1", some "active", some 100, none⟩]⟩
        ⟨[], [], []⟩ 120 "9.9.9.9" (some "zzz") :=
  tierSelection_rejection_chain (fun k => k ++ "-h")
    ⟨some "sec", 50, 500, 45, 1, 200, 10, 20, ["en", "fr"]⟩
    ⟨[⟨"id1", "u1", "abc-h", true⟩], [⟨"u1", some "active", some 100, none⟩]⟩
    ⟨[], [], []⟩ 120 "9.9.9.9" (some "zzz") "sec" rfl (by decide)

/-- C10. A whitespace-only `X-API-Key` value is normalised away: the
dependency behaves exactly as with no header at all — in particular it is
independent of the hash function and of the ApiKey/Billing tables, so no
key-hash lookup and no 401/403 can occur; the free IP-based limit applies. -/
theorem whitespaceKey_treated_absent (hash hash2 : String → String) (settings : Settings)
    (db db2 : Db) (st : RedisState) (now : Nat) (clientIp : String) (v : String)
    (hv : v ≠ "") (hws : pyStrip v = "") :
    rateLimitDependency hash settings db st now clientIp (some v) =
      rateLimitDependency hash2 settings db2 st now clientIp none := by
  have hnorm : normalizeApiKey (some v) = none := by
    show (if v = "" then none
        else (let s := pyStrip v; if s = "" then none else some s)) = none
    rw [if_neg hv]
    simp [hws]
  unfold rateLimitDependency
  rw [hnorm]
  rfl

/-- Closed instance of C10: a header of three spaces behaves as no header,
for two different hash functions and two different databases. -/
theorem whitespaceKey_treated_absent_witness :
    rateLimitDependency (fun k => k ++ "-h")
        ⟨some "sec", 50, 500, 45, 1, 200, 10, 20, ["en", "fr"]⟩
        ⟨[⟨"id1", "u1", "abc-h", true⟩], []⟩ ⟨[], [], []⟩ 120 "9.9.9.9" (some "   ") =
      rateLimitDependency (fun k => k ++ "-x")
        ⟨some "sec", 50, 500, 45, 1, 200, 10, 20, ["en", "fr"]⟩
        ⟨[], []⟩ ⟨[], [], []⟩ 120 "9.9.9.9" none :=
  whitespaceKey_treated_absent (fun k => k ++ "-h") (fun k => k ++ "-x")
    ⟨some "sec", 50, 500, 45, 1, 200, 10, 20, ["en", "fr"]⟩
    ⟨[⟨"id1", "u1", "abc-h", true⟩], []⟩ ⟨[], []⟩ ⟨[], [], []⟩ 120 "9.9.9.9" "   "
    (by decide) (by decide)

/-- Closed instance of C1: limit 2, three requests at 120, 125, 130
(window 2): outcomes ok, ok, 429. -/
theorem rateLimit_fixed_window_witness :
    ((runRequests ⟨[], [], []⟩ "ip:1.2.3.4" 2 [120, 125, 130]).1.log =
        [StoreOp.incrOp "ratelimit:ip:1.2.3.4:2", StoreOp.expireOp "ratelimit:ip:1.2.3.4:2" 60,
          StoreOp.incrOp "ratelimit:ip:1.2.3.4:2", StoreOp.incrOp "ratelimit:ip:1.2.3.4:2"]) ∧
      (runRequests ⟨[], [], []⟩ "ip:1.2.3.4" 2 [120, 125, 130]).2[2]? =
        some (Except.error ⟨429, "Rate limit exceeded"⟩) := by
  have h := rateLimit_fixed_window ⟨[], [], []⟩ "ip:1.2.3.4" 2 [120, 125, 130] 2
    rfl rfl (by decide)
  refine ⟨?_, ?_⟩
  · have := h.1
    simpa using this
  · have := h.2 2 (by decide)
    simpa using this

/-! ## Votes pipeline: `ingest_votes` in
`canpoli/services/hoc_parliament_ingestion.py`

Dates are carried as opaque strings; sha256 and the two HTML decoders are
explicit function parameters. -/

/-- A `Vote` row (`canpoli/models/vote.py`). -/
structure VoteRow where
  id : Nat
  voteNumber : Int
  parliament : Option Int
  session : Option Int
  voteDate : Option String
  subjectEn : Option String
  decision : Option String
  yeas : Option Int
  nays : Option Int
  paired : Option Int
  billNumber : Option String
  motionText : Option String
  sitting : Option Int
  sourceUrl : Option String
  sourceHash : Option String
deriving DecidableEq, Repr

/-- A `VoteMember` row (`canpoli/models/vote_member.py`). -/
structure VoteMemberRow where
  voteId : Nat
  representativeId : Option Nat
  hocId : Option Int
  memberName : Option String
  position : Option String
  partyName : Option String
  ridingName : Option String
deriving DecidableEq, Repr

/-- The vote-related database slice, with the id sequence for new rows. -/
structure VotesDb where
  votes : List VoteRow
  voteMembers : List VoteMemberRow
  nextVoteId : Nat
deriving DecidableEq, Repr

/-- `VoteRepository.get_by_vote_number`. -/
def getByVoteNumber (db : VotesDb) (n : Int) (parl sess : Option Int) : Option VoteRow :=
  db.votes.find? (fun v => v.voteNumber == n && v.parliament == parl && v.session == sess)

/-- The keyword fields passed to `VoteRepository.upsert` by `ingest_votes`. -/
structure VoteFields where
  voteDate : Option String
  subjectEn : Option String
  decision : Option String
  yeas : Option Int
  nays : Option Int
  paired : Option Int
  billNumber : Option String
  motionText : Option String
  sitting : Option Int
  sourceUrl : Option String
  sourceHash : Option String
deriving DecidableEq, Repr

/-- `VoteRepository.upsert`: mutate the row found by natural key, else
create a fresh row; returns the stored row's id. -/
def upsertVote (db : VotesDb) (n : Int) (parl sess : Option Int) (f : VoteFields) :
    VotesDb × Nat :=
  match getByVoteNumber db n parl sess with
  | some existing =>
    let updated : VoteRow :=
      { existing with
          voteDate := f.voteDate, subjectEn := f.subjectEn, decision := f.decision,
          yeas := f.yeas, nays := f.nays, paired := f.paired,
          billNumber := f.billNumber, motionText := f.motionText, sitting := f.sitting,
          sourceUrl := f.sourceUrl, sourceHash := f.sourceHash }
    ({ db with votes := db.votes.map (fun v => if v.id == existing.id then updated else v) },
      existing.id)
  | none =>
    let created : VoteRow :=
      { id := db.nextVoteId, voteNumber := n, parliament := parl, session := sess,
        voteDate := f.voteDate, subjectEn := f.subjectEn, decision := f.decision,
        yeas := f.yeas, nays := f.nays, paired := f.paired,
        billNumber := f.billNumber, motionText := f.motionText, sitting := f.sitting,
        sourceUrl := f.sourceUrl, sourceHash := f.sourceHash }
    ({ db with votes := db.votes ++ [created], nextVoteId := db.nextVoteId + 1 },
      db.nextVoteId)

/-- One row decoded from the votes list table. -/
structure VoteListItem where
  voteNumber : Int
  subjectEn : Option String
  decision : Option String
  yeas : Option Int
  nays : Option Int
  paired : Option Int
  voteDate : Option String
  billNumber : Option String
  detailUrl : Option String
deriving DecidableEq, Repr

/-- The `extra_fields` part of `_parse_vote_detail`. -/
structure VoteDetailExtra where
  subjectEn : Option String
  billNumber : Option String
  motionText : Option String
  sitting : Option Int
deriving DecidableEq, Repr

/-- One member dict from `_parse_vote_detail`. -/
structure VoteMemberRec where
  hocId : Option Int
  memberName : Option String
  position : Option String
  partyName : Option String
  ridingName : Option String
deriving DecidableEq, Repr

/-- Per-vote and aggregate counters of `ingest_votes`. -/
structure VoteStats where
  votes : Nat
  members : Nat
  errors : Nat
deriving DecidableEq, Repr

/-- Python `a or b` on optional strings: `None` and `""` fall through. -/
def pyOrStr (a b : Option String) : Option String :=
  match a with
  | some s => if s = "" then b else some s
  | none => b

/-- `vote_member_repo.create(...)` argument assembly inside `ingest_votes`:
the representative link comes from the `hoc_id → Representative` map, and a
falsy (missing or zero) `hoc_id` skips the lookup. -/
def mkVoteMemberRow (repMap : List (Int × Nat)) (voteId : Nat) (m : VoteMemberRec) :
    VoteMemberRow :=
  let rep : Option Nat :=
    match m.hocId with
    | some h => if h ≠ 0 then (repMap.find? (fun p => p.fst == h)).map Prod.snd else none
    | none => none
  { voteId := voteId, representativeId := rep, hocId := m.hocId,
    memberName := m.memberName, position := m.position,
    partyName := m.partyName, ridingName := m.ridingName }

/-- The write path of one `ingest_votes` loop iteration (after the hash
short-circuit did not fire): upsert the vote, then — only when the decoded
member list is non-empty — delete that vote's `VoteMember` rows and insert
the decoded ones. -/
def processVoteWrite (parseDetail : String → VoteDetailExtra × List VoteMemberRec)
    (parl sess : Option Int) (repMap : List (Int × Nat))
    (db : VotesDb) (stats : VoteStats) (item : VoteListItem)
    (detailText : Option String) (sourceHash : Option String) : VotesDb × VoteStats :=
  let parsed : VoteDetailExtra × List VoteMemberRec :=
    match detailText with
    | some t => parseDetail t
    | none => (⟨none, none, none, none⟩, [])
  let extra := parsed.1
  let members := parsed.2
  let fields : VoteFields :=
    { voteDate := item.voteDate
      subjectEn := pyOrStr extra.subjectEn item.subjectEn
      decision := item.decision
      yeas := item.yeas
      nays := item.nays
      paired := item.paired
      billNumber := pyOrStr extra.billNumber item.billNumber
      motionText := extra.motionText
      sitting := extra.sitting
      sourceUrl := item.detailUrl
      sourceHash := sourceHash }
  let up := upsertVote db item.voteNumber parl sess fields
  let db1 := up.1
  let storedId := up.2
  let stats1 := { stats with votes := stats.votes + 1 }
  if members.isEmpty then (db1, stats1)
  else
    ({ db1 with
        voteMembers :=
          db1.voteMembers.filter (fun m => m.voteId != storedId)
            ++ members.map (fun m => mkVoteMemberRow repMap storedId m) },
      { stats1 with members := stats1.members + members.length })

/-- One `ingest_votes` loop iteration: fetch the detail page when a detail
URL is present (a fetch failure is caught and counted as an error), hash
it, short-circuit when an existing row already holds that hash, otherwise
write. -/
def processVote (sha : String → String)
    (parseDetail : String → VoteDetailExtra × List VoteMemberRec)
    (fetch : String → Except String String)
    (parl sess : Option Int) (repMap : List (Int × Nat))
    (db : VotesDb) (stats : VoteStats) (item : VoteListItem) : VotesDb × VoteStats :=
  let fetched : Except String (Option String) :=
    match item.detailUrl with
    | some url => (fetch url).map some
    | none => Except.ok none
  match fetched with
  | Except.error _ => (db, { stats with errors := stats.errors + 1 })
  | Except.ok detailText =>
    let sourceHash := detailText.map sha
    let skip : Bool :=
      match getByVoteNumber db item.voteNumber parl sess, sourceHash with
      | some existing, some h => existing.sourceHash == some h
      | _, _ => false
    if skip then (db, stats)
    else processVoteWrite parseDetail parl sess repMap db stats item detailText sourceHash

/-- The `VoteMember` rows attached to a vote
(`VoteMemberRepository.list_by_vote_id`). -/
def voteMembersOf (db : VotesDb) (voteId : Nat) : List VoteMemberRow :=
  db.voteMembers.filter (fun m => m.voteId == voteId)

/-! ## Debates pipeline: `ingest_debates` in
`canpoli/services/hoc_parliament_ingestion.py` -/

/-- A `Debate` row (`canpoli/models/debate.py`). -/
structure DebateRow where
  id : Nat
  parliament : Option Int
  session : Option Int
  sitting : Option Nat
  language : Option String
  debateDate : Option String
  volume : Option String
  number : Option String
  speakerName : Option String
  documentUrl : Option String
  sourceHash : Option String
deriving DecidableEq, Repr

/-- A `DebateIntervention` row (`canpoli/models/debate_intervention.py`). -/
structure InterventionRow where
  debateId : Nat
  sequence : Nat
  speakerName : Option String
  speakerAffiliation : Option String
  floorLanguage : Option String
  timestamp : Option String
  orderOfBusiness : Option String
  subjectTitle : Option String
  interventionType : Option String
  text : Option String
deriving DecidableEq, Repr

/-- The debate-related database slice. -/
structure DebatesDb where
  debates : List DebateRow
  interventions : List InterventionRow
  nextDebateId : Nat
deriving DecidableEq, Repr

/-- `DebateRepository.get_by_parl_session_sitting_lang`. -/
def getByParlSessionSittingLang (db : DebatesDb) (parl sess : Option Int)
    (sitting : Option Nat) (language : Option String) : Option DebateRow :=
  db.debates.find? (fun d =>
    d.parliament == parl && d.session == sess && d.sitting == sitting
      && d.language == language)

/-- The metadata fields `_parse_hansard_xml` extracts for the parent row
(besides the language and hash the caller fixes). -/
structure HansardMeta where
  debateDate : Option String
  volume : Option String
  number : Option String
  speakerName : Option String
deriving DecidableEq, Repr

/-- One intervention dict from `_parse_intervention`. -/
structure InterventionRec where
  speakerName : Option String
  speakerAffiliation : Option String
  floorLanguage : Option String
  timestamp : Option String
  orderOfBusiness : Option String
  subjectTitle : Option String
  interventionType : Option String
  text : Option String
deriving DecidableEq, Repr

/-- `DebateRepository.upsert` keyword fields. -/
structure DebateFields where
  debateDate : Option String
  volume : Option String
  number : Option String
  speakerName : Option String
  documentUrl : Option String
  sourceHash : Option String
deriving DecidableEq, Repr

/-- `DebateRepository.upsert`: mutate the row found by natural key, else
create; returns the stored row's id. -/
def upsertDebate (db : DebatesDb) (parl sess : Option Int) (sitting : Option Nat)
    (language : Option String) (f : DebateFields) : DebatesDb × Nat :=
  match getByParlSessionSittingLang db parl sess sitting language with
  | some existing =>
    let updated : DebateRow :=
      { existing with
          debateDate := f.debateDate, volume := f.volume, number := f.number,
          speakerName := f.speakerName, documentUrl := f.documentUrl,
          sourceHash := f.sourceHash }
    ({ db with
        debates := db.debates.map (fun d => if d.id == existing.id then updated else d) },
      existing.id)
  | none =>
    let created : DebateRow :=
      { id := db.nextDebateId, parliament := parl, session := sess, sitting := sitting,
        language := language, debateDate := f.debateDate, volume := f.volume,
        number := f.number, speakerName := f.speakerName, documentUrl := f.documentUrl,
        sourceHash := f.sourceHash }
    ({ db with debates := db.debates ++ [created], nextDebateId := db.nextDebateId + 1 },
      db.nextDebateId)

/-- Counters of `ingest_debates`. -/
structure DebateStats where
  debates : Nat
  interventions : Nat
  errors : Nat
deriving DecidableEq, Repr

/-- Processing of one successfully fetched Hansard document inside
`ingest_debates`: parse, hash the raw XML, short-circuit when the stored
row already holds that hash, otherwise upsert the debate, delete all its
interventions and re-insert the decoded ones sequenced 1..N. -/
def processDebateDoc (sha : String → String)
    (parseHansard : String → HansardMeta × List InterventionRec)
    (parl sess : Option Int) (sitting : Nat) (lang : String) (url : String)
    (db : DebatesDb) (stats : DebateStats) (xmlText : String) :
    DebatesDb × DebateStats :=
  let parsed := parseHansard xmlText
  let meta := parsed.1
  let interventions := parsed.2
  let sourceHash := sha xmlText
  let existing := getByParlSessionSittingLang db parl sess (some sitting) (some lang)
  let skip : Bool :=
    match existing with
    | some ex => ex.sourceHash == some sourceHash
    | none => false
  if skip then (db, stats)
  else
    let up := upsertDebate db parl sess (some sitting) (some lang)
      { debateDate := meta.debateDate, volume := meta.volume, number := meta.number,
        speakerName := meta.speakerName, documentUrl := some url,
        sourceHash := some sourceHash }
    let db1 := up.1
    let storedId := up.2
    let db2 : DebatesDb :=
      { db1 with
          interventions :=
            db1.interventions.filter (fun iv => iv.debateId != storedId)
              ++ (List.range interventions.length).zipWith
                  (fun idx item =>
                    { debateId := storedId, sequence := idx + 1,
                      speakerName := item.speakerName,
                      speakerAffiliation := item.speakerAffiliation,
                      floorLanguage := item.floorLanguage,
                      timestamp := item.timestamp,
                      orderOfBusiness := item.orderOfBusiness,
                      subjectTitle := item.subjectTitle,
                      interventionType := item.interventionType,
                      text := item.text })
                  interventions }
    (db2,
      { stats with
          debates := stats.debates + 1
          interventions := stats.interventions + interventions.length })

/-- C3. Content-hash short-circuit.  Votes: when the vote's natural key
already has a row and sha256 of the freshly fetched detail page equals the
stored `source_hash`, the loop iteration leaves the whole votes slice
(parent and children) and the stats untouched.  Debates: when the stored
row for `(parl, session, sitting, language)` holds the hash of the fetched
XML, the document is skipped and the debates slice is untouched. -/
theorem contentHash_short_circuit (sha : String → String)
    (parseDetail : String → VoteDetailExtra × List VoteMemberRec)
    (fetch : String → Except String String)
    (parl sess : Option Int) (repMap : List (Int × Nat))
    (vdb : VotesDb) (vstats : VoteStats) (item : VoteListItem)
    (url txt : String) (ex : VoteRow)
    (hurl : item.detailUrl = some url) (hfetch : fetch url = Except.ok txt)
    (hex : getByVoteNumber vdb item.voteNumber parl sess = some ex)
    (hhash : ex.sourceHash = some (sha txt))
    (shaD : String → String)
    (parseH : String → HansardMeta × List InterventionRec)
    (parl2 sess2 : Option Int) (sitting : Nat) (lang : String) (url2 : String)
    (ddb : DebatesDb) (dstats : DebateStats) (xml : String) (dex : DebateRow)
    (hdex : getByParlSessionSittingLang ddb parl2 sess2 (some sitting) (some lang) = some dex)
    (hdhash : dex.sourceHash = some (shaD xml)) :
    processVote sha parseDetail fetch parl sess repMap vdb vstats item = (vdb, vstats) ∧
      processDebateDoc shaD parseH parl2 sess2 sitting lang url2 ddb dstats xml =
        (ddb, dstats) := by
  constructor
  · simp [processVote, Except.map, hurl, hfetch, hex, hhash]
  · simp [processDebateDoc, hdex, hdhash]

/-- Closed instance of C3: a matching hash skips both a vote and a debate. -/
theorem contentHash_short_circuit_witness :
    processVote (fun s => "H-" ++ s) (fun _ => (⟨none, none, none, none⟩, []))
        (fun _ => Except.ok "doc") (some 45) (some 1) []
        ⟨[⟨1, 100, some 45, some 1, none, none, none, none, none, none, none, none, none,
            some "u", some "H-doc"⟩], [⟨1, none, some 5, some "A", some "Yea", none, none⟩], 2⟩
        ⟨0, 0, 0⟩ ⟨100, none, none, none, none, none, none, none, some "u"⟩ =
      (⟨[⟨1, 100, some 45, some 1, none, none, none, none, none, none, none, none, none,
            some "u", some "H-doc"⟩], [⟨1, none, some 5, some "A", some "Yea", none, none⟩], 2⟩,
        ⟨0, 0, 0⟩) ∧
      processDebateDoc (fun s => "H-" ++ s) (fun _ => (⟨none, none, none, none⟩, []))
        (some 45) (some 1) 7 "en" "u2"
        ⟨[⟨1, some 45, some 1, some 7, some "en", none, none, none, none, some "u2",
            some "H-xml"⟩], [], 2⟩ ⟨0, 0, 0⟩ "xml" =
      (⟨[⟨1, some 45, some 1, some 7, some "en", none, none, none, none, some "u2",
            some "H-xml"⟩], [], 2⟩, ⟨0, 0, 0⟩) :=
  contentHash_short_circuit (fun s => "H-" ++ s) (fun _ => (⟨none, none, none, none⟩, []))
    (fun _ => Except.ok "doc") (some 45) (some 1) []
    ⟨[⟨1, 100, some 45, some 1, none, none, none, none, none, none, none, none, none,
        some "u", some "H-doc"⟩], [⟨1, none, some 5, some "A", some "Yea", none, none⟩], 2⟩
    ⟨0, 0, 0⟩ ⟨100, none, none, none, none, none, none, none, some "u"⟩ "u" "doc"
    ⟨1, 100, some 45, some 1, none, none, none, none, none, none, none, none, none,
      some "u", some "H-doc"⟩ rfl rfl (by decide) (by decide)
    (fun s => "H-" ++ s) (fun _ => (⟨none, none, none, none⟩, []))
    (some 45) (some 1) 7 "en" "u2"
    ⟨[⟨1, some 45, some 1, some 7, some "en", none, none, none, none, some "u2",
        some "H-xml"⟩], [], 2⟩ ⟨0, 0, 0⟩ "xml"
    ⟨1, some 45, some 1, some 7, some "en", none, none, none, none, some "u2", some "H-xml"⟩
    (by decide) (by decide)

/-- C4 counterexample: an existing vote with one stored `VoteMember` row,
a changed detail payload (hash mismatch) whose decoded member list is
empty.  The code deletes children only inside `if members:`, so the stale
row survives re-ingestion, contradicting "all previously stored VoteMember
rows for that vote are removed". -/
theorem voteChildReplacement_counterexample :
    ((fun s => "H-" ++ s) "doc" = "H-doc") ∧
      (((fun (_ : String) => ((⟨none, none, none, none⟩ : VoteDetailExtra),
          ([] : List VoteMemberRec))) "doc").2 = []) ∧
      voteMembersOf
        (processVote (fun s => "H-" ++ s)
          (fun _ => (⟨none, none, none, none⟩, []))
          (fun _ => Except.ok "doc") (some 45) (some 1) []
          ⟨[⟨1, 100, some 45, some 1, none, none, none, none, none, none, none, none, none,
              some "u", some "H-old"⟩],
            [⟨1, none, some 5, some "A", some "Yea", none, none⟩], 2⟩
          ⟨0, 0, 0⟩ ⟨100, none, none, none, none, none, none, none, some "u"⟩).1 1 =
        [⟨1, none, some 5, some "A", some "Yea", none, none⟩] := by
  refine ⟨rfl, rfl, ?_⟩
  decide

/-- Delete-then-reinsert on a keyed list: filtering back by the key yields
exactly the reinserted rows. -/
theorem filter_key_replace {α β : Type} [BEq α] [LawfulBEq α] (key : β → α) (id : α)
    (l r : List β) (hr : ∀ b ∈ r, key b = id) :
    (l.filter (fun b => key b != id) ++ r).filter (fun b => key b == id) = r := by
  rw [List.filter_append]
  have h1 : (l.filter (fun b => key b != id)).filter (fun b => key b == id) = [] := by
    induction l with
    | nil => rfl
    | cons x xs ih =>
      by_cases hx : key x = id
      · have hb : (key x != id) = false := by simp [hx]
        simp [List.filter_cons, hb, ih]
      · have hb : (key x != id) = true := by simp [hx]
        have hb2 : (key x == id) = false := by simp [hx]
        simp [List.filter_cons, hb, hb2, ih]
  have h2 : r.filter (fun b => key b == id) = r := by
    apply List.filter_eq_self.mpr
    intro b hb
    simp [hr b hb]
  rw [h1, h2]
  simp

theorem upsertVote_snd (db : VotesDb) (n : Int) (parl sess : Option Int)
    (f : VoteFields) (ex : VoteRow) (hex : getByVoteNumber db n parl sess = some ex) :
    (upsertVote db n parl sess f).2 = ex.id := by
  simp [upsertVote, hex]

theorem upsertVote_voteMembers (db : VotesDb) (n : Int) (parl sess : Option Int)
    (f : VoteFields) : (upsertVote db n parl sess f).1.voteMembers = db.voteMembers := by
  unfold upsertVote
  cases getByVoteNumber db n parl sess <;> rfl

theorem processVoteWrite_members
    (parseDetail : String → VoteDetailExtra × List VoteMemberRec)
    (parl sess : Option Int) (repMap : List (Int × Nat))
    (db : VotesDb) (stats : VoteStats) (item : VoteListItem)
    (txt : String) (sourceHash : Option String) (ex : VoteRow)
    (hex : getByVoteNumber db item.voteNumber parl sess = some ex) :
    voteMembersOf
        (processVoteWrite parseDetail parl sess repMap db stats item
          (some txt) sourceHash).1 ex.id =
      if (parseDetail txt).2.isEmpty then voteMembersOf db ex.id
      else (parseDetail txt).2.map (mkVoteMemberRow repMap ex.id) := by
  have h2 : ∀ f, (upsertVote db item.voteNumber parl sess f).2 = ex.id :=
    fun f => upsertVote_snd db item.voteNumber parl sess f ex hex
  cases hmem : (parseDetail txt).2.isEmpty with
  | true =>
    simp only [processVoteWrite, h2, hmem, if_true]
    unfold voteMembersOf
    rw [upsertVote_voteMembers]
  | false =>
    simp only [processVoteWrite, h2, hmem, Bool.false_eq_true, if_false]
    unfold voteMembersOf
    show (((upsertVote db item.voteNumber parl sess _).1.voteMembers.filter
        (fun m => m.voteId != ex.id))
          ++ (parseDetail txt).2.map (fun m => mkVoteMemberRow repMap ex.id m)).filter
        (fun m => m.voteId == ex.id) = _
    rw [upsertVote_voteMembers]
    exact filter_key_replace (fun m : VoteMemberRow => m.voteId) ex.id db.voteMembers _
      (by
        intro b hb
        obtain ⟨m, _, hm⟩ := List.mem_map.mp hb
        rw [← hm]
        rfl)

/-- C4 as amended: after a hash-mismatch re-ingest of an existing vote,
the set of `VoteMember` rows attached to it equals the newly decoded
member set whenever that set is non-empty; when the newly decoded member
set is empty, the previously stored rows are left in place (the
delete-and-reinsert is guarded by `if members:`). -/
theorem voteChildReplacement_amended (sha : String → String)
    (parseDetail : String → VoteDetailExtra × List VoteMemberRec)
    (fetch : String → Except String String)
    (parl sess : Option Int) (repMap : List (Int × Nat))
    (db : VotesDb) (stats : VoteStats) (item : VoteListItem)
    (url txt : String) (ex : VoteRow)
    (hurl : item.detailUrl = some url) (hfetch : fetch url = Except.ok txt)
    (hex : getByVoteNumber db item.voteNumber parl sess = some ex)
    (hne : ex.sourceHash ≠ some (sha txt)) :
    voteMembersOf (processVote sha parseDetail fetch parl sess repMap db stats item).1 ex.id =
      if (parseDetail txt).2.isEmpty then voteMembersOf db ex.id
      else (parseDetail txt).2.map (mkVoteMemberRow repMap ex.id) := by
  have hbeq : (ex.sourceHash == some (sha txt)) = false := by
    simpa using hne
  have hred : processVote sha parseDetail fetch parl sess repMap db stats item =
      processVoteWrite parseDetail parl sess repMap db stats item (some txt)
        (some (sha txt)) := by
    simp [processVote, Except.map, hurl, hfetch, hex, hbeq]
  rw [hred]
  exact processVoteWrite_members parseDetail parl sess repMap db stats item txt
    (some (sha txt)) ex hex

/-- Closed instance of the amended C4: a hash-mismatch re-ingest with one
decoded member replaces the stale stored member row. -/
theorem voteChildReplacement_amended_witness :
    voteMembersOf
        (processVote (fun s => "H-" ++ s)
          (fun _ => (⟨none, none, none, none⟩,
            [⟨some 7, some "B", some "Nay", some "P", none⟩]))
          (fun _ => Except.ok "doc") (some 45) (some 1) [(7, 3)]
          ⟨[⟨1, 100, some 45, some 1, none, none, none, none, none, none, none, none, none,
              some "u", some "H-old"⟩],
            [⟨1, none, some 5, some "A", some "Yea", none, none⟩], 2⟩
          ⟨0, 0, 0⟩ ⟨100, none, none, none, none, none, none, none, some "u"⟩).1 1 =
      [⟨1, some 3, some 7, some "B", some "Nay", some "P", none⟩] := by
  have h := voteChildReplacement_amended (fun s => "H-" ++ s)
    (fun _ => (⟨none, none, none, none⟩, [⟨some 7, some "B", some "Nay", some "P", none⟩]))
    (fun _ => Except.ok "doc") (some 45) (some 1) [(7, 3)]
    ⟨[⟨1, 100, some 45, some 1, none, none, none, none, none, none, none, none, none,
        some "u", some "H-old"⟩],
      [⟨1, none, some 5, some "A", some "Yea", none, none⟩], 2⟩
    ⟨0, 0, 0⟩ ⟨100, none, none, none, none, none, none, none, some "u"⟩ "u" "doc"
    ⟨1, 100, some 45, some 1, none, none, none, none, none, none, none, none, none,
      some "u", some "H-old"⟩ rfl rfl (by decide) (by decide)
  simpa using h

/-! ## Debates scan control: bounds, missing counter, stop condition -/

/-- `select(func.max(Debate.sitting)).where(...)` over the model. -/
def maxExistingSitting (db : DebatesDb) (parl sess : Option Int) : Option Nat :=
  ((db.debates.filter (fun d => d.parliament == parl && d.session == sess)).filterMap
    (fun d => d.sitting)).max?

/-- The scan bounds computed by `ingest_debates` (`if max_sitting:` is
Python truthiness, so both `None` and `0` take the cold-start branch). -/
def debateScanStart (db : DebatesDb) (parl sess : Option Int)
    (lookahead cfgMaxSitting : Nat) : Nat × Nat :=
  match maxExistingSitting db parl sess with
  | some m => if m ≠ 0 then (m + 1, m + lookahead) else (1, cfgMaxSitting)
  | none => (1, cfgMaxSitting)

/-- `found_any` for one sitting: some configured language fetch succeeded. -/
def sittingFound (fetchOk : Nat → String → Bool) (languages : List String) (s : Nat) :
    Bool :=
  languages.any (fun lang => fetchOk s lang)

/-- The sitting loop of `ingest_debates`, reduced to its control flow: walk
the sitting numbers carrying the `missing` counter; a found sitting resets
it, a missing one increments it and stops the scan once it reaches
`max_missing`.  Returns the sittings actually visited. -/
def debateScanLoop (found : Nat → Bool) (maxMissing : Nat) :
    List Nat → Nat → List Nat
  | [], _ => []
  | s :: rest, missing =>
    if found s then s :: debateScanLoop found maxMissing rest 0
    else if missing + 1 ≥ maxMissing then [s]
    else s :: debateScanLoop found maxMissing rest (missing + 1)

/-- The scan from `start` to `endS` (inclusive), counter starting at 0. -/
def debateScan (found : Nat → Bool) (maxMissing start endS : Nat) : List Nat :=
  debateScanLoop found maxMissing (List.range' start (endS + 1 - start)) 0

/-- Specification-side counter: the number of consecutive sittings with no
successful fetch, ending at `t` (counted from `start`). -/
def consecMissing (found : Nat → Bool) (start : Nat) (t : Nat) : Nat :=
  if found t then 0
  else if h : t ≤ start then 1
  else consecMissing found start (t - 1) + 1
termination_by t
decreasing_by omega

/-- The scan as the specification words it: every sitting of the range is
visited unless some strictly earlier sitting already drove the
consecutive-missing counter to `max_missing`. -/
def scanSpec (found : Nat → Bool) (maxMissing start endS : Nat) : List Nat :=
  (List.range' start (endS + 1 - start)).filter
    (fun s => (List.range' start (s - start)).all
      (fun t => decide (consecMissing found start t < maxMissing)))

theorem debateScanLoop_spec (found : Nat → Bool) (mm start : Nat) (hmm : 1 ≤ mm) :
    ∀ (n a : Nat), start ≤ a →
      (∀ t, start ≤ t → t < a → consecMissing found start t < mm) →
      debateScanLoop found mm (List.range' a n)
          (if a ≤ start then 0 else consecMissing found start (a - 1)) =
        (List.range' a n).filter
          (fun s => (List.range' start (s - start)).all
            (fun t => decide (consecMissing found start t < mm))) := by
  intro n
  induction n with
  | zero => intro a _ _; rfl
  | succ k ih =>
    intro a ha hprev
    have henter : (if a ≤ start then 0 else consecMissing found start (a - 1)) + 1 =
        consecMissing found start a ∨ found a = true := by
      by_cases hf : found a
      · exact Or.inr hf
      · left
        by_cases has : a ≤ start
        · have heq : a = start := le_antisymm has ha
          subst heq
          rw [if_pos has]
          unfold consecMissing
          simp [hf]
        · rw [if_neg has]
          conv_rhs => rw [consecMissing]
          simp [hf, has]
    have hkeep : (fun s => (List.range' start (s - start)).all
        (fun t => decide (consecMissing found start t < mm))) a = true := by
      show ((List.range' start (a - start)).all
        (fun t => decide (consecMissing found start t < mm))) = true
      apply List.all_eq_true.mpr
      intro t ht
      have hmem : start ≤ t ∧ t < start + (a - start) := by
        have := List.mem_range'_1.mp ht
        exact this
      have hta : t < a := by omega
      exact decide_eq_true (hprev t hmem.1 hta)
    rw [List.range'_succ]
    by_cases hf : found a
    · have hcons : consecMissing found start a = 0 := by
        unfold consecMissing
        simp [hf]
      have hrec := ih (a + 1) (by omega)
        (by
          intro t h1 h2
          by_cases hta : t < a
          · exact hprev t h1 hta
          · have : t = a := by omega
            rw [this, hcons]; omega)
      rw [show (if a + 1 ≤ start then 0
          else consecMissing found start (a + 1 - 1)) = 0 by
        rw [if_neg (by omega)]
        simpa using hcons] at hrec
      unfold debateScanLoop
      rw [if_pos hf, hrec, List.filter_cons, if_pos hkeep]
    · have hcons : consecMissing found start a =
          (if a ≤ start then 0 else consecMissing found start (a - 1)) + 1 := by
        rcases henter with h | h
        · exact h.symm
        · exact absurd h hf
      by_cases hstop : (if a ≤ start then 0 else consecMissing found start (a - 1)) + 1 ≥ mm
      · have hfail : consecMissing found start a ≥ mm := by rw [hcons]; exact hstop
        unfold debateScanLoop
        rw [if_neg hf, if_pos hstop]
        have hnil : (List.range' (a + 1) k).filter
            (fun s => (List.range' start (s - start)).all
              (fun t => decide (consecMissing found start t < mm))) = [] := by
          apply List.filter_eq_nil_iff.mpr
          intro s hs
          have hsr := List.mem_range'_1.mp hs
          intro hall
          have hamem : a ∈ List.range' start (s - start) := by
            apply List.mem_range'_1.mpr
            constructor
            · exact ha
            · omega
          have := List.all_eq_true.mp hall a hamem
          have := of_decide_eq_true this
          omega
        rw [List.filter_cons, if_pos hkeep, hnil]
      · have hlt : consecMissing found start a < mm := by omega
        have hrec := ih (a + 1) (by omega)
          (by
            intro t h1 h2
            by_cases hta : t < a
            · exact hprev t h1 hta
            · have : t = a := by omega
              rw [this]; exact hlt)
        rw [show (if a + 1 ≤ start then 0
            else consecMissing found start (a + 1 - 1)) =
              (if a ≤ start then 0 else consecMissing found start (a - 1)) + 1 by
          rw [if_neg (by omega)]
          simpa using hcons] at hrec
        unfold debateScanLoop
        rw [if_neg hf, if_neg hstop, hrec, List.filter_cons, if_pos hkeep]

/-- C6. Debates scan: the start bound is `max existing sitting + 1` when
debates exist (else 1); and the visit list of the sitting scan equals its
specification — a counter of consecutive sittings with no successful
language fetch, stopping the scan once it reaches `max_missing` and reset
by any successful fetch — whose configured default is 20. -/
theorem debatesScan_bounds_and_stop (fetchOk : Nat → String → Bool)
    (languages : List String) (mm start endS : Nat)
    (db1 db2 : DebatesDb) (parl sess : Option Int) (la cm m : Nat)
    (hmm : 1 ≤ mm)
    (h1 : maxExistingSitting db1 parl sess = some m) (hm : m ≠ 0)
    (h2 : maxExistingSitting db2 parl sess = none) :
    (debateScanStart db1 parl sess la cm).1 = m + 1 ∧
      (debateScanStart db2 parl sess la cm).1 = 1 ∧
      debateScan (sittingFound fetchOk languages) mm start endS =
        scanSpec (sittingFound fetchOk languages) mm start endS ∧
      defaultSettings.hocDebatesMaxMissing = 20 := by
  refine ⟨?_, ?_, ?_, rfl⟩
  · unfold debateScanStart
    rw [h1]
    show (if m ≠ 0 then (m + 1, m + la) else (1, cm)).1 = m + 1
    rw [if_pos hm]
  · unfold debateScanStart
    rw [h2]
  · unfold debateScan scanSpec
    have h := debateScanLoop_spec (sittingFound fetchOk languages) mm start hmm
      (endS + 1 - start) start le_rfl (by intro t h1 h2; omega)
    rw [if_pos le_rfl] at h
    exact h

/-- Closed instance of C6: fetches succeed up to sitting 3, max-missing 2;
the scan over 1..10 visits 1..5 and stops; a db whose max sitting is 5
starts at 6, an empty db starts at 1. -/
theorem debatesScan_bounds_and_stop_witness :
    (debateScanStart
        ⟨[⟨1, some 45, some 1, some 5, some "en", none, none, none, none, none, none⟩],
          [], 2⟩ (some 45) (some 1) 10 200).1 = 5 + 1 ∧
      (debateScanStart ⟨[], [], 1⟩ (some 45) (some 1) 10 200).1 = 1 ∧
      debateScan (sittingFound (fun s _ => decide (s ≤ 3)) ["en", "fr"]) 2 1 10 =
        scanSpec (sittingFound (fun s _ => decide (s ≤ 3)) ["en", "fr"]) 2 1 10 ∧
      defaultSettings.hocDebatesMaxMissing = 20 :=
  debatesScan_bounds_and_stop (fun s _ => decide (s ≤ 3)) ["en", "fr"] 2 1 10
    ⟨[⟨1, some 45, some 1, some 5, some "en", none, none, none, none, none, none⟩], [], 2⟩
    ⟨[], [], 1⟩ (some 45) (some 1) 10 200 5 (by decide) (by decide) (by decide) (by decide)

/-! ## Ingestion orchestrator: `HoCParliamentIngestionService.ingest` -/

/-- A pipeline stats dictionary. -/
abbrev PipelineStats := List (String × Int)

/-- The outcome of invoking one pipeline coroutine. -/
inductive PipelineOutcome where
  | ok (stats : PipelineStats) : PipelineOutcome
  | raise (msg : String) : PipelineOutcome
deriving DecidableEq, Repr

/-- `ingest`: run the enabled pipelines in declared order, accumulating
`stats[name]`.  There is no per-pipeline exception handler — the body is a
plain `try/finally` that only closes the HTTP client — so a raised
exception propagates, discarding the accumulated stats and skipping every
later pipeline.  Returns the names actually invoked and either the
aggregate stats or the propagated error. -/
def orchestratorIngest :
    List (String × Bool × PipelineOutcome) →
      List String × Except String (List (String × PipelineStats))
  | [] => ([], Except.ok [])
  | (name, enabled, outcome) :: rest =>
    if enabled then
      match outcome with
      | PipelineOutcome.raise msg => ([name], Except.error msg)
      | PipelineOutcome.ok s =>
        let q := orchestratorIngest rest
        (name :: q.1, q.2.map (fun acc => (name, s) :: acc))
    else orchestratorIngest rest

/-- C5 evaluated at the failing input: `party_standings` enabled and
raising, `roles` enabled and healthy.  The run invokes only
`party_standings`, propagates the exception, and produces no
`stats[party_standings] = {error: ...}` entry — `roles` never runs,
contradicting the claim that every later enabled pipeline still
contributes a stats entry. -/
theorem orchestratorFailureIsolation_eval :
    orchestratorIngest
        [("party_standings", true, PipelineOutcome.raise "boom"),
          ("roles", true, PipelineOutcome.ok [("representatives", 3)])] =
      (["party_standings"], Except.error "boom") := by
  rfl

/-! ## Usage metering: `increment_usage` and `usage_middleware` -/

/-- Counter-store operations as seen by `increment_usage`, allowed to
fail (a lost Redis connection raises from `incr`/`expire`). -/
structure UsageStore where
  incrR : String → Except String Int
  expireR : String → Int → Except String Unit

/-- The request-state attributes `increment_usage` reads. -/
structure UsageReqState where
  apiKeyId : Option String
  usagePeriodStart : Option Int
  usagePeriodEnd : Option Int

/-- `increment_usage` (`canpoli/rate_limit.py`): no-op without an attached
key id or period start; otherwise one INCR of
`usage:{api_key_id}:{period_ts}` and, on first increment, an EXPIRE with
the computed ttl.  Store errors propagate — there is no handler. -/
def incrementUsage (store : UsageStore) (nowTs : Int) (s : UsageReqState) :
    Except String Unit :=
  match s.apiKeyId with
  | none => Except.ok ()
  | some apiKeyId =>
    if apiKeyId = "" then Except.ok ()
    else
      match s.usagePeriodStart with
      | none => Except.ok ()
      | some periodStartTs =>
        let ttl : Int :=
          match s.usagePeriodEnd with
          | some endTs => max 60 (endTs - nowTs + 86400)
          | none => 60 * 60 * 24 * 35
        let key := "usage:" ++ apiKeyId ++ ":" ++ toString periodStartTs
        match store.incrR key with
        | Except.error e => Except.error e
        | Except.ok count =>
          if count = 1 then
            match store.expireR key ttl with
            | Except.error e => Except.error e
            | Except.ok _ => Except.ok ()
          else Except.ok ()

/-- An HTTP response as the middleware sees it. -/
structure PyResponse where
  statusCode : Nat
  body : String
deriving DecidableEq, Repr

/-- `usage_middleware` (`canpoli/app.py`): compute the response, call
`increment_usage` when the status is below 400, return the response.  The
call is not guarded, so an error raised while recording usage propagates
instead of the response. -/
def usageMiddleware (store : UsageStore) (nowTs : Int) (s : UsageReqState)
    (response : PyResponse) : Except String PyResponse :=
  if response.statusCode < 400 then
    match incrementUsage store nowTs s with
    | Except.error e => Except.error e
    | Except.ok _ => Except.ok response
  else Except.ok response

/-- A store whose INCR raises (e.g. the Redis connection is down). -/
def failingUsageStore : UsageStore :=
  ⟨fun _ => Except.error "redis unavailable", fun _ _ => Except.ok ()⟩

/-- C7 evaluated at the failing input: a 200 response carrying an attached
`api_key_id` and period start, with a counter store whose INCR raises.
The middleware propagates the error instead of returning the computed
response, contradicting "recording failures never alter the response". -/
theorem usageMeteringContainment_eval :
    usageMiddleware failingUsageStore 1000 ⟨some "key-1", some 900, none⟩
        ⟨200, "payload"⟩ = Except.error "redis unavailable" ∧
      usageMiddleware failingUsageStore 1000 ⟨some "key-1", some 900, none⟩
        ⟨200, "payload"⟩ ≠ Except.ok ⟨200, "payload"⟩ := by
  constructor
  · rfl
  · intro h
    have h1 : usageMiddleware failingUsageStore 1000 ⟨some "key-1", some 900, none⟩
        ⟨200, "payload"⟩ = Except.error "redis unavailable" := rfl
    exact Except.noConfusion (h1.symm.trans h)

/-! ## Party standings pipeline: `ingest_party_standings` -/

/-- A `Party` row (`canpoli/models/party.py`). -/
structure PartyRow where
  id : Nat
  name : String
  shortName : Option String
  color : Option String
deriving DecidableEq, Repr

/-- A `PartyStanding` row (`canpoli/models/party_standing.py`). -/
structure PartyStandingRow where
  partyName : String
  parliament : Option Int
  session : Option Int
  asOfDate : Option String
  partyId : Option Nat
  seatCount : Int
  sourceUrl : Option String
deriving DecidableEq, Repr

/-- The slice of the store the party-standings pipeline touches. -/
structure StandingsDb where
  parties : List PartyRow
  standings : List PartyStandingRow
  nextPartyId : Nat
deriving DecidableEq, Repr

/-- `PartyRepository.get_by_name`. -/
def partyGetByName (db : StandingsDb) (name : String) : Option PartyRow :=
  db.parties.find? (fun p => p.name == name)

/-- `PartyRepository.get_or_create`. -/
def partyGetOrCreate (db : StandingsDb) (name : String)
    (shortName color : Option String) : StandingsDb × PartyRow :=
  match partyGetByName db name with
  | some p => (db, p)
  | none =>
    let p : PartyRow := ⟨db.nextPartyId, name, shortName, color⟩
    ({ db with parties := db.parties ++ [p], nextPartyId := db.nextPartyId + 1 }, p)

/-- The natural key of `PartyStandingRepository.upsert`. -/
def standingKeyMatch (name : String) (parl sess : Option Int) (asOf : Option String)
    (st : PartyStandingRow) : Bool :=
  st.partyName == name && st.parliament == parl && st.session == sess && st.asOfDate == asOf

/-- `PartyStandingRepository.upsert`: mutate the matching row's non-key
fields, else append a new row. -/
def upsertPartyStanding (db : StandingsDb) (name : String) (parl sess : Option Int)
    (asOf : Option String) (partyId : Option Nat) (seatCount : Int)
    (srcUrl : Option String) : StandingsDb :=
  match db.standings.find? (standingKeyMatch name parl sess asOf) with
  | some _ =>
    { db with
        standings := db.standings.map (fun st =>
          if standingKeyMatch name parl sess asOf st then
            { st with partyId := partyId, seatCount := seatCount, sourceUrl := srcUrl }
          else st) }
  | none =>
    { db with
        standings := db.standings
          ++ [⟨name, parl, sess, asOf, partyId, seatCount, srcUrl⟩] }

/-- Python `str.lower()` (ASCII), kernel-computable. -/
def pyLower (s : String) : String :=
  String.mk (s.data.map Char.toLower)

/-- The loop body of `ingest_party_standings` for one decoded
`(party_name, seat_count)`: for a non-"Vacant" name (case-insensitively),
look the party up by name and fall back to `get_or_create`; for "Vacant"
leave the party link empty; then upsert the standing. -/
def ingestPartyStandingItem (db : StandingsDb) (parl sess : Option Int)
    (asOf : Option String) (srcUrl : Option String) (partyName : String)
    (seatCount : Int) : StandingsDb :=
  let pr : StandingsDb × Option PartyRow :=
    if pyLower partyName ≠ "vacant" then
      match partyGetByName db partyName with
      | some p => (db, some p)
      | none =>
        let q := partyGetOrCreate db partyName none none
        (q.1, some q.2)
    else (db, none)
  upsertPartyStanding pr.1 partyName parl sess asOf (pr.2.map (fun p => p.id))
    seatCount srcUrl

/-- The stored standing for a natural key. -/
def lookupStanding (db : StandingsDb) (name : String) (parl sess : Option Int)
    (asOf : Option String) : Option PartyStandingRow :=
  db.standings.find? (standingKeyMatch name parl sess asOf)

theorem find?_map_update {β : Type} (p : β → Bool) (g : β → β)
    (hg : ∀ b, p (g b) = p b) :
    ∀ l : List β, (l.map (fun x => if p x then g x else x)).find? p = (l.find? p).map g := by
  intro l
  induction l with
  | nil => rfl
  | cons x xs ih =>
    by_cases hx : p x
    · simp only [List.map_cons, if_pos hx]
      rw [List.find?_cons_of_pos _ (by rw [hg]; exact hx),
        List.find?_cons_of_pos _ hx]
      rfl
    · simp only [List.map_cons, if_neg hx]
      rw [List.find?_cons_of_neg _ (by simpa using hx),
        List.find?_cons_of_neg _ (by simpa using hx)]
      exact ih

theorem find?_append_none {β : Type} (p : β → Bool) (l r : List β)
    (h : l.find? p = none) : (l ++ r).find? p = r.find? p := by
  induction l with
  | nil => rfl
  | cons x xs ih =>
    by_cases hx : p x
    · rw [List.find?_cons_of_pos _ hx] at h
      exact absurd h (by simp)
    · rw [List.find?_cons_of_neg _ (by simpa using hx)] at h
      rw [List.cons_append, List.find?_cons_of_neg _ (by simpa using hx)]
      exact ih h

theorem upsertPartyStanding_parties (db : StandingsDb) (name : String)
    (parl sess : Option Int) (asOf : Option String) (partyId : Option Nat)
    (seatCount : Int) (srcUrl : Option String) :
    (upsertPartyStanding db name parl sess asOf partyId seatCount srcUrl).parties =
      db.parties := by
  unfold upsertPartyStanding
  cases db.standings.find? (standingKeyMatch name parl sess asOf) <;> rfl

theorem lookupStanding_upsert_partyId (db : StandingsDb) (name : String)
    (parl sess : Option Int) (asOf : Option String) (pid : Option Nat)
    (sc : Int) (srcUrl : Option String) :
    (lookupStanding (upsertPartyStanding db name parl sess asOf pid sc srcUrl)
        name parl sess asOf).map (fun st => st.partyId) = some pid := by
  unfold lookupStanding upsertPartyStanding
  cases hfind : db.standings.find? (standingKeyMatch name parl sess asOf) with
  | some ex =>
    simp only
    rw [find?_map_update (standingKeyMatch name parl sess asOf)
      (fun st => { st with partyId := pid, seatCount := sc, sourceUrl := srcUrl })
      (fun b => rfl), hfind]
    rfl
  | none =>
    simp only
    rw [find?_append_none _ _ _ hfind]
    simp [standingKeyMatch, List.find?]

/-- C8 counterexample: a decoded party name (not "Vacant") with no
matching `Party` row.  The pipeline's `get_or_create` fallback creates a
new `Party` row, contradicting "no new Party row is created by this
pipeline". -/
theorem partyStandingsLookupOnly_counterexample :
    partyGetByName ⟨[], [], 0⟩ "Greens" = none ∧
      (ingestPartyStandingItem ⟨[], [], 0⟩ (some 45) (some 1) (some "2026-01-01")
          (some "u") "Greens" 3).parties = [⟨0, "Greens", none, none⟩] := by
  refine ⟨rfl, ?_⟩
  decide

/-- C8 as amended: for a decoded name whose lowercase is not "vacant", the
stored standing's `party_id` is the id of the Party obtained by name
lookup — an existing row when the lookup succeeds (no Party created), a
newly created row (via `get_or_create`) when it does not; for a "Vacant"
name the standing is stored with a null `party_id` and no Party row is
touched. -/
theorem partyStandingsPartyLink_amended (db : StandingsDb) (parl sess : Option Int)
    (asOf : Option String) (srcUrl : Option String) (n1 n2 v : String) (p : PartyRow)
    (c1 c2 c3 : Int)
    (h1l : pyLower n1 ≠ "vacant") (h1 : partyGetByName db n1 = some p)
    (h2l : pyLower n2 ≠ "vacant") (h2 : partyGetByName db n2 = none)
    (hv : pyLower v = "vacant") :
    ((ingestPartyStandingItem db parl sess asOf srcUrl n1 c1).parties = db.parties ∧
        (lookupStanding (ingestPartyStandingItem db parl sess asOf srcUrl n1 c1)
            n1 parl sess asOf).map (fun st => st.partyId) = some (some p.id)) ∧
      ((ingestPartyStandingItem db parl sess asOf srcUrl n2 c2).parties =
          db.parties ++ [⟨db.nextPartyId, n2, none, none⟩] ∧
        (lookupStanding (ingestPartyStandingItem db parl sess asOf srcUrl n2 c2)
            n2 parl sess asOf).map (fun st => st.partyId) = some (some db.nextPartyId)) ∧
      ((ingestPartyStandingItem db parl sess asOf srcUrl v c3).parties = db.parties ∧
        (lookupStanding (ingestPartyStandingItem db parl sess asOf srcUrl v c3)
            v parl sess asOf).map (fun st => st.partyId) = some none) := by
  have hstep1 : ingestPartyStandingItem db parl sess asOf srcUrl n1 c1 =
      upsertPartyStanding db n1 parl sess asOf (some p.id) c1 srcUrl := by
    simp [ingestPartyStandingItem, h1l, h1]
  have hstep2 : ingestPartyStandingItem db parl sess asOf srcUrl n2 c2 =
      upsertPartyStanding
        (StandingsDb.mk (db.parties ++ [⟨db.nextPartyId, n2, none, none⟩])
          db.standings (db.nextPartyId + 1))
        n2 parl sess asOf (some db.nextPartyId) c2 srcUrl := by
    simp [ingestPartyStandingItem, h2l, partyGetOrCreate, h2]
  have hstep3 : ingestPartyStandingItem db parl sess asOf srcUrl v c3 =
      upsertPartyStanding db v parl sess asOf none c3 srcUrl := by
    simp [ingestPartyStandingItem, hv]
  refine ⟨⟨?_, ?_⟩, ⟨?_, ?_⟩, ⟨?_, ?_⟩⟩
  · rw [hstep1, upsertPartyStanding_parties]
  · rw [hstep1]
    exact lookupStanding_upsert_partyId db n1 parl sess asOf (some p.id) c1 srcUrl
  · rw [hstep2, upsertPartyStanding_parties]
  · rw [hstep2]
    exact lookupStanding_upsert_partyId _ n2 parl sess asOf (some db.nextPartyId) c2 srcUrl
  · rw [hstep3, upsertPartyStanding_parties]
  · rw [hstep3]
    exact lookupStanding_upsert_partyId db v parl sess asOf none c3 srcUrl

/-- Closed instance of the amended C8: "Liberal" links to the existing
party 7, "Greens" links to the freshly created party 8, "Vacant" stays
unlinked. -/
theorem partyStandingsPartyLink_amended_witness :
    ((ingestPartyStandingItem ⟨[⟨7, "Liberal", none, none⟩], [], 8⟩ (some 45) (some 1)
          (some "2026-01-01") (some "u") "Liberal" 160).parties =
        [⟨7, "Liberal", none, none⟩] ∧
      (lookupStanding (ingestPartyStandingItem ⟨[⟨7, "Liberal", none, none⟩], [], 8⟩
            (some 45) (some 1) (some "2026-01-01") (some "u") "Liberal" 160)
          "Liberal" (some 45) (some 1) (some "2026-01-01")).map
            (fun st => st.partyId) = some (some 7)) ∧
      ((ingestPartyStandingItem ⟨[⟨7, "Liberal", none, none⟩], [], 8⟩ (some 45) (some 1)
            (some "2026-01-01") (some "u") "Greens" 3).parties =
          [⟨7, "Liberal", none, none⟩] ++ [⟨8, "Greens", none, none⟩] ∧
        (lookupStanding (ingestPartyStandingItem ⟨[⟨7, "Liberal", none, none⟩], [], 8⟩
              (some 45) (some 1) (some "2026-01-01") (some "u") "Greens" 3)
            "Greens" (some 45) (some 1) (some "2026-01-01")).map
              (fun st => st.partyId) = some (some 8)) ∧
      ((ingestPartyStandingItem ⟨[⟨7, "Liberal", none, none⟩], [], 8⟩ (some 45) (some 1)
            (some "2026-01-01") (some "u") "Vacant" 2).parties =
          [⟨7, "Liberal", none, none⟩] ∧
        (lookupStanding (ingestPartyStandingItem ⟨[⟨7, "Liberal", none, none⟩], [], 8⟩
              (some 45) (some 1) (some "2026-01-01") (some "u") "Vacant" 2)
            "Vacant" (some 45) (some 1) (some "2026-01-01")).map
              (fun st => st.partyId) = some none) :=
  partyStandingsPartyLink_amended ⟨[⟨7, "Liberal", none, none⟩], [], 8⟩ (some 45) (some 1)
    (some "2026-01-01") (some "u") "Liberal" "Greens" "Vacant" ⟨7, "Liberal", none, none⟩
    160 3 2 (by decide) (by decide) (by decide) (by decide) (by decide)

/-! ## Roles pipeline: `ingest_roles` -/

/-- One decoded role dict from `_parse_roles_xml`. -/
structure RoleRec where
  roleName : Option String
  roleType : Option String
  organization : Option String
  parliament : Option Int
  session : Option Int
  startDate : Option String
  endDate : Option String
  isCurrent : Bool
  sourceUrl : Option String
  sourceHash : Option String
deriving DecidableEq, Repr

/-- A `RepresentativeRole` row (`canpoli/models/representative_role.py`). -/
structure RoleRow where
  representativeId : Nat
  roleName : Option String
  roleType : Option String
  organization : Option String
  parliament : Option Int
  session : Option Int
  startDate : Option String
  endDate : Option String
  isCurrent : Bool
  sourceUrl : Option String
  sourceHash : Option String
deriving DecidableEq, Repr

/-- `role_repo.create(representative_id=rep.id, **role)`. -/
def mkRoleRow (repId : Nat) (r : RoleRec) : RoleRow :=
  { representativeId := repId, roleName := r.roleName, roleType := r.roleType,
    organization := r.organization, parliament := r.parliament, session := r.session,
    startDate := r.startDate, endDate := r.endDate, isCurrent := r.isCurrent,
    sourceUrl := r.sourceUrl, sourceHash := r.sourceHash }

/-- The role rows slice. -/
structure RolesDb where
  roles : List RoleRow
deriving DecidableEq, Repr

/-- Counters of `ingest_roles`. -/
structure RoleStats where
  representatives : Nat
  roles : Nat
  errors : Nat
deriving DecidableEq, Repr

/-- One iteration of the `ingest_roles` loop for a representative:
`fetched` is the combined result of the per-MP fetch and
`_parse_roles_xml`, both inside the `try`; an exception increments the
error counter and leaves the rows alone; success deletes the
representative's roles and inserts the decoded set. -/
def ingestRolesItem (db : RolesDb) (stats : RoleStats) (repId : Nat)
    (fetched : Except String (List RoleRec)) : RolesDb × RoleStats :=
  match fetched with
  | Except.error _ => (db, { stats with errors := stats.errors + 1 })
  | Except.ok roles =>
    ({ db with
        roles := db.roles.filter (fun r => r.representativeId != repId)
          ++ roles.map (fun r => mkRoleRow repId r) },
      { stats with roles := stats.roles + roles.length })

/-- `RepresentativeRoleRepository` rows of one representative. -/
def rolesOf (db : RolesDb) (repId : Nat) : List RoleRow :=
  db.roles.filter (fun r => r.representativeId == repId)

/-- C9. Roles error atomicity: when the per-MP fetch or decode raises, the
iteration returns the database unchanged (every previously stored
`RepresentativeRole` row intact) with exactly `errors + 1`; the
delete-then-reinsert runs only on success, after which the
representative's stored rows are exactly the decoded set. -/
theorem rolesErrorAtomicity (db : RolesDb) (stats : RoleStats) (repId repId2 : Nat)
    (e : String) (rs : List RoleRec) :
    ingestRolesItem db stats repId (Except.error e) =
        (db, { stats with errors := stats.errors + 1 }) ∧
      rolesOf (ingestRolesItem db stats repId2 (Except.ok rs)).1 repId2 =
        rs.map (mkRoleRow repId2) := by
  refine ⟨rfl, ?_⟩
  unfold ingestRolesItem rolesOf
  simp only
  exact filter_key_replace (fun r : RoleRow => r.representativeId) repId2 db.roles _
    (by
      intro b hb
      obtain ⟨r, _, hr⟩ := List.mem_map.mp hb
      rw [← hr]
      rfl)

end Canpoli
